import Mathlib

/-!
Verification of the CollaborativeJsonEditor backend core against its
natural-language specification.

The embedding translates the TypeScript sources:
  * RoomManager (room/client bookkeeping, room deletion on last leave),
  * CrdtService (per-room document store; the external yjs merge primitive
    is modelled from the spec, see `YDoc` below),
  * WebSocketHandler (frame decoding, dispatch, broadcast, replication),
  * RedisService (pub/sub subscription bookkeeping).

JS `Map`s are modelled as association lists with `Map.set` semantics
(update-in-place at an existing key, else append, keys unique), JS `Set`s
as duplicate-free lists in insertion order.  Machine integers are `Nat`
(all byte reads are bounded by construction).  External I/O boundaries
(`JSON.parse` of the JS runtime) are passed as explicit function
parameters to the handlers.
-/

namespace CollabEditor

/-- JS `Map.prototype.get`: first binding of the key, if any. -/
def alGet {α : Type} : List (String × α) → String → Option α
  | [], _ => none
  | (k', v) :: t, k => if k' = k then some v else alGet t k

/-- JS `Map.prototype.set`: replace the binding in place, else append. -/
def alSet {α : Type} : List (String × α) → String → α → List (String × α)
  | [], k, v => [(k, v)]
  | (k', v') :: t, k, v =>
    if k' = k then (k', v) :: t else (k', v') :: alSet t k v

/-- JS `Map.prototype.delete`: remove the binding for the key. -/
def alDel {α : Type} (l : List (String × α)) (k : String) : List (String × α) :=
  l.filter (fun p => p.1 != k)

/-- JS `Set.prototype.add`: append unless already present. -/
def setAdd (l : List String) (c : String) : List String :=
  if c ∈ l then l else l ++ [c]

/-- JS `Set.prototype.delete`. -/
def setDel (l : List String) (c : String) : List String :=
  l.filter (fun x => x != c)

/-- `IClient` from types.ts. -/
structure IClient where
  id : String
  roomId : String
  instanceId : String
  joinedAt : Nat
deriving DecidableEq

/-- `IRoom` from types.ts. -/
structure IRoom where
  id : String
  createdAt : Nat
  clientCount : Nat
  updatesCount : Nat
  lastUpdateAt : Option Nat
deriving DecidableEq

/-- Modelled from the spec: the yjs `Y.Doc` merge primitive is an external
dependency (spec section 9: a pluggable component whose merge must be
commutative, associative and idempotent, with canonical full-state
encoding).  It is modelled as the canonical such structure: the set of
non-empty binary deltas merged so far, plus the `state` shared map
holding last-write-wins field patches. -/
structure YDoc where
  merged : Finset (List Nat)
  fields : List (String × String)
deriving DecidableEq

/-- A fresh `new Y.Doc()` with its empty `state` map. -/
def YDoc.empty : YDoc := ⟨∅, []⟩

/-- CrdtService.getOrCreateDocument. -/
def getOrCreateDocument (r : String) (docs : List (String × YDoc)) :
    YDoc × List (String × YDoc) :=
  match alGet docs r with
  | some d => (d, docs)
  | none => (YDoc.empty, docs ++ [(r, YDoc.empty)])

/-- CrdtService.applyJsonUpdate: `state.set(key, value)` for each entry,
inside one transaction. -/
def applyJsonUpdate (r : String) (fieldsU : List (String × String))
    (docs : List (String × YDoc)) : List (String × YDoc) :=
  let p := getOrCreateDocument r docs
  alSet p.2 r
    ({ p.1 with fields := fieldsU.foldl (fun m kv => alSet m kv.1 kv.2) p.1.fields })

/-- CrdtService.applyUpdate: empty updates are rejected before the
document is even created; otherwise `Y.applyUpdate doc update`. -/
def applyUpdate (r : String) (u : List Nat)
    (docs : List (String × YDoc)) : List (String × YDoc) :=
  if u = [] then docs
  else
    let p := getOrCreateDocument r docs
    alSet p.2 r ({ p.1 with merged := insert u p.1.merged })

/-- CrdtService.getDocumentState: `Y.encodeStateAsUpdate` of the
(created-if-absent) document; the encoding is the canonical state. -/
def getDocumentState (r : String) (docs : List (String × YDoc)) :
    YDoc × List (String × YDoc) :=
  getOrCreateDocument r docs

/-- CrdtService.deleteDocument. -/
def deleteDocument (r : String) (docs : List (String × YDoc)) :
    List (String × YDoc) :=
  alDel docs r

/-- Combined mutable state of RoomManager, CrdtService and the
gateway's connection map, threaded explicitly. -/
structure SysState where
  rooms : List (String × IRoom)
  roomClients : List (String × List String)
  clients : List (String × IClient)
  docs : List (String × YDoc)
  conns : List String
  instanceId : String
deriving DecidableEq

/-- RoomManager.getOrCreateRoom (creates the CRDT document as a side
effect). -/
def getOrCreateRoom (r : String) (now : Nat) (s : SysState) :
    IRoom × SysState :=
  match alGet s.rooms r with
  | some room => (room, s)
  | none =>
    let room : IRoom := ⟨r, now, 0, 0, none⟩
    let docs1 := (getOrCreateDocument r s.docs).2
    (room, { s with rooms := alSet s.rooms r room,
                    roomClients := alSet s.roomClients r [],
                    docs := docs1 })

/-- RoomManager.addClientToRoom. -/
def addClientToRoom (c r i : String) (now : Nat) (s : SysState) : SysState :=
  let p := getOrCreateRoom r now s
  let s1 := p.2
  let cl : IClient := ⟨c, r, i, now⟩
  let members1 := setAdd ((alGet s1.roomClients r).getD []) c
  { s1 with clients := alSet s1.clients c cl,
            roomClients := alSet s1.roomClients r members1,
            rooms := alSet s1.rooms r ({ p.1 with clientCount := members1.length }) }

/-- RoomManager.deleteRoom (private): drops the room record, its member
set and its CRDT document in the same step. -/
def deleteRoom (r : String) (s : SysState) : SysState :=
  { s with rooms := alDel s.rooms r,
           roomClients := alDel s.roomClients r,
           docs := deleteDocument r s.docs }

/-- First statement block of removeClientFromRoom: drop the client from
its room's member set (skipped when the set is gone). -/
def removeStep1 (c : String) (cl : IClient) (s : SysState) : SysState :=
  match alGet s.roomClients cl.roomId with
  | some ms =>
    { s with roomClients := alSet s.roomClients cl.roomId (setDel ms c) }
  | none => s

/-- Second statement block of removeClientFromRoom: refresh clientCount
and delete the room (with its document) when it just became empty. -/
def removeStep2 (cl : IClient) (s1 : SysState) : SysState :=
  match alGet s1.rooms cl.roomId with
  | some room =>
    if ((alGet s1.roomClients cl.roomId).getD []).length = 0 then deleteRoom cl.roomId s1
    else
      { s1 with rooms := alSet s1.rooms cl.roomId ({ room with clientCount := ((alGet s1.roomClients cl.roomId).getD []).length }) }
  | none => s1

/-- RoomManager.removeClientFromRoom. -/
def removeClientFromRoom (c : String) (s : SysState) : SysState :=
  match alGet s.clients c with
  | none => s
  | some cl =>
    let s2 := removeStep2 cl (removeStep1 c cl s)
    { s2 with clients := alDel s2.clients c }

/-- RoomManager.recordUpdate: no-op if the room vanished. -/
def recordUpdate (r : String) (now : Nat) (s : SysState) : SysState :=
  match alGet s.rooms r with
  | none => s
  | some room =>
    let room1 : IRoom :=
      { room with updatesCount := room.updatesCount + 1, lastUpdateAt := some now }
    { s with rooms := alSet s.rooms r room1 }

/-- RoomManager.getClientsInRoom. -/
def getClientsInRoom (s : SysState) (r : String) : List IClient :=
  ((alGet s.roomClients r).getD []).filterMap (fun id => alGet s.clients id)

/-- `MessageType` from types.ts. -/
inductive MsgType where
  | joinRoom | leaveRoom | documentUpdate | documentState | syncUpdate | error | ack
deriving DecidableEq

/-- `IMessage` from types.ts; for `DOCUMENT_UPDATE` the payload carries
the update bytes (the base64 transport encoding is modelled as the
decoded bytes themselves). -/
structure IMessage where
  type : MsgType
  roomId : String
  clientId : Option String
  payload : Option (List Nat)
  timestamp : Nat
deriving DecidableEq

/-- The replication-bus wire payload, after `JSON.parse`. -/
structure SyncMsg where
  clientId : String
  update : List Nat
  timestamp : Nat
  instanceId : String
deriving DecidableEq

/-- Outbound frames sent over a client connection. -/
inductive OutMsg where
  | errorMsg (text : String)
  | docState (roomId : String) (doc : YDoc) (ts : Nat)
  | ackMsg (roomId : String) (text : String)
  | docUpdate (roomId : String) (sender : String) (update : List Nat) (ts : Nat)
deriving DecidableEq

/-- Observable effects of a handler: `ws.send` to a client, or a
`redis.publish` on a channel. -/
inductive Evt where
  | send (target : String) (m : OutMsg)
  | publish (channel : String) (sync : SyncMsg)
deriving DecidableEq

/-- WebSocketHandler.broadcastToRoom: send to every member whose
connection is still open, skipping the optional excluded client. -/
def broadcastToRoom (s : SysState) (r : String) (m : OutMsg)
    (exclude : Option String) : List Evt :=
  (getClientsInRoom s r).filterMap fun cl =>
    if exclude = some cl.id then none
    else if cl.id ∈ s.conns then some (Evt.send cl.id m) else none

/-- WebSocketHandler.sendError: sent only on a still-open connection. -/
def sendError (s : SysState) (c : String) (txt : String) : List Evt :=
  if c ∈ s.conns then [Evt.send c (OutMsg.errorMsg txt)] else []

/-- Byte read with out-of-range default 0 (used only under the decoder's
bounds checks, which make every in-branch read in range). -/
def byteAt (bs : List Nat) (i : Nat) : Nat := bs.getD i 0

/-- `buffer.readUInt16LE`. -/
def readU16LE (bs : List Nat) (i : Nat) : Nat :=
  byteAt bs i + 256 * byteAt bs (i + 1)

/-- `buffer.readUInt32LE`. -/
def readU32LE (bs : List Nat) (i : Nat) : Nat :=
  byteAt bs i + 256 * byteAt bs (i + 1) + 65536 * byteAt bs (i + 2)
    + 16777216 * byteAt bs (i + 3)

/-- `buffer.readBigUInt64LE`. -/
def readU64LE (bs : List Nat) (i : Nat) : Nat :=
  readU32LE bs i + 4294967296 * readU32LE bs (i + 4)

/-- The fields of a successfully decoded binary document-update frame. -/
structure BinFrame where
  roomBytes : List Nat
  timestamp : Nat
  update : List Nat
deriving DecidableEq

/-- WebSocketHandler.decodeBinaryDocumentUpdate.  The source's guards,
in order: minimum length 15; kind byte must be 1; room id in range
(`3 + L ≤ len`); timestamp in range (`3 + L + 8 ≤ len`); update length
in range (`11 + L + 4 ≤ len`); and the total length must match exactly
(`15 + L + U = len`). -/
def decodeBinaryDocumentUpdate (bs : List Nat) : Option BinFrame :=
  if bs.length < 15 then none
  else if byteAt bs 0 ≠ 1 then none
  else if bs.length < 3 + readU16LE bs 1 then none
  else if bs.length < 11 + readU16LE bs 1 then none
  else if bs.length < 15 + readU16LE bs 1 then none
  else if 15 + readU16LE bs 1 + readU32LE bs (11 + readU16LE bs 1) ≠ bs.length then none
  else
    some ⟨(bs.drop 3).take (readU16LE bs 1),
          readU64LE bs (3 + readU16LE bs 1),
          (bs.drop (15 + readU16LE bs 1)).take (readU32LE bs (11 + readU16LE bs 1))⟩

/-- JS whitespace bytes removed by `String.prototype.trim` (the UTF-8
decode of the buffer is modelled byte-wise; faithful on ASCII input). -/
def isWsByte (b : Nat) : Bool :=
  b == 9 || b == 10 || b == 11 || b == 12 || b == 13 || b == 32

/-- `buffer.toString("utf8").trim().startsWith("\x7b")`: the byte-level
check routing a payload to the JSON path (123 is the opening brace). -/
def beginsWithBrace (bs : List Nat) : Bool :=
  match bs.dropWhile isWsByte with
  | [] => false
  | b :: _ => b == 123

/-- `Buffer.toString("utf8")` on room-id bytes, modelled as the direct
character injection (faithful on ASCII room ids). -/
def bytesToStr (bs : List Nat) : String :=
  String.mk (bs.map Char.ofNat)

/-- Normalization of a decoded binary frame into the shared `IMessage`
shape (decodeBinaryDocumentUpdate's tail). -/
def binFrameToMessage (c : String) (now : Nat) (f : BinFrame) : IMessage :=
  ⟨MsgType.documentUpdate, bytesToStr f.roomBytes, some c, some f.update, now⟩

/-- WebSocketHandler.handleJoinRoom (without the Redis-subscription
step, which touches only `RedisState` and is modelled by
`subscribeIfAbsent` below). -/
def handleJoinRoom (c : String) (now : Nat) (msg : IMessage) (s : SysState) :
    SysState × List Evt :=
  if msg.roomId = "" then (s, sendError s c "Missing roomId")
  else
    let s1 := addClientToRoom c msg.roomId s.instanceId now s
    let p := getDocumentState msg.roomId s1.docs
    let s2 := { s1 with docs := p.2 }
    (s2,
      Evt.send c (OutMsg.docState msg.roomId p.1 now)
        :: Evt.send c (OutMsg.ackMsg msg.roomId ("You joined the room " ++ msg.roomId))
        :: broadcastToRoom s2 msg.roomId
             (OutMsg.ackMsg msg.roomId ("Client " ++ c ++ " joined the room")) (some c))

/-- WebSocketHandler.handleLeaveRoom. -/
def handleLeaveRoom (c : String) (msg : IMessage) (s : SysState) :
    SysState × List Evt :=
  if msg.roomId = "" then (s, [])
  else
    let s1 := removeClientFromRoom c s
    (s1, broadcastToRoom s1 msg.roomId
           (OutMsg.ackMsg msg.roomId ("Client " ++ c ++ " left the room")) (some c))

/-- The room's replication channel name. -/
def roomChannel (r : String) : String := "room:" ++ r ++ ":updates"

/-- The tail of handleDocumentUpdate after a successful apply:
recordUpdate, publish the SYNC_UPDATE to the bus, broadcast locally
excluding the sender. -/
def afterApply (c : String) (now : Nat) (r : String) (bs : List Nat)
    (s1 : SysState) : SysState × List Evt :=
  let s2 := recordUpdate r now s1
  (s2, Evt.publish (roomChannel r) ⟨c, bs, now, s2.instanceId⟩
        :: broadcastToRoom s2 r (OutMsg.docUpdate r c bs now) (some c))

/-- WebSocketHandler.handleDocumentUpdate.  `jp` is the JS runtime's
`JSON.parse` restricted to update payloads, returning the parsed
key-to-value entries, or `none` when the parse throws. -/
def handleDocumentUpdate (jp : List Nat → Option (List (String × String)))
    (c : String) (now : Nat) (msg : IMessage) (s : SysState) :
    SysState × List Evt :=
  if msg.roomId = "" then (s, [])
  else
    match msg.payload with
    | none => (s, [])
    | some bs =>
      match (if beginsWithBrace bs then jp bs else none) with
      | some fieldsU =>
        afterApply c now msg.roomId bs { s with docs := applyJsonUpdate msg.roomId fieldsU s.docs }
      | none =>
        if bs.length = 0 then (s, [])
        else
          afterApply c now msg.roomId bs { s with docs := applyUpdate msg.roomId bs s.docs }

/-- WebSocketHandler.handleRedisUpdate: self-echo check first, then the
same JSON-or-binary apply, recordUpdate, and a local broadcast with no
excluded client. -/
def handleRedisUpdate (jp : List Nat → Option (List (String × String)))
    (now : Nat) (r : String) (m : SyncMsg) (s : SysState) :
    SysState × List Evt :=
  if m.instanceId = s.instanceId then (s, [])
  else
    let s1 :=
      match (if beginsWithBrace m.update then jp m.update else none) with
      | some fieldsU => { s with docs := applyJsonUpdate r fieldsU s.docs }
      | none => { s with docs := applyUpdate r m.update s.docs }
    let s2 := recordUpdate r now s1
    (s2, broadcastToRoom s2 r (OutMsg.docUpdate r m.clientId m.update m.timestamp) none)

/-- The dispatch switch of handleMessage (SYNC_UPDATE and unknown kinds
are ignored). -/
def dispatch (jp : List Nat → Option (List (String × String)))
    (c : String) (now : Nat) (m : IMessage) (s : SysState) :
    SysState × List Evt :=
  match m.type with
  | MsgType.joinRoom => handleJoinRoom c now m s
  | MsgType.leaveRoom => handleLeaveRoom c m s
  | MsgType.documentUpdate => handleDocumentUpdate jp c now m s
  | _ => (s, [])

/-- WebSocketHandler.handleMessage on a binary (Buffer) frame: bail out
if the connection is gone; try the JSON path when the frame trims to an
opening brace (`jpFrame` is the runtime's `JSON.parse` at frame level,
`none` when it throws); fall back to the binary decoder; if both fail,
reply ERROR "Invalid message format" and leave everything unchanged. -/
def handleMessage (jpFrame : List Nat → Option IMessage)
    (jp : List Nat → Option (List (String × String)))
    (c : String) (now : Nat) (bs : List Nat) (s : SysState) :
    SysState × List Evt :=
  if c ∈ s.conns then
    if beginsWithBrace bs then
      match jpFrame bs with
      | some m => dispatch jp c now m s
      | none =>
        match decodeBinaryDocumentUpdate bs with
        | some f => dispatch jp c now (binFrameToMessage c now f) s
        | none => (s, sendError s c "Invalid message format")
    else
      match decodeBinaryDocumentUpdate bs with
      | some f => dispatch jp c now (binFrameToMessage c now f) s
      | none => (s, sendError s c "Invalid message format")
  else (s, [])

/-- RedisService bookkeeping: the `subscriptions` map, plus the
listeners accumulated on the underlying subscriber client by each
`client.subscribe` call (callbacks are identified by a token). -/
structure RedisState where
  subs : List (String × Nat)
  clientListeners : List (String × Nat)
deriving DecidableEq

/-- RedisService.subscribe: unconditionally stores the callback in the
`subscriptions` map and registers one more listener on the subscriber
client. -/
def subscribe (ch : String) (cb : Nat) (st : RedisState) : RedisState :=
  ⟨alSet st.subs ch cb, st.clientListeners ++ [(ch, cb)]⟩

/-- The join path's guard (WebSocketHandler.handleJoinRoom): subscribe
only when `getStatus().subscribedChannels` does not contain the
channel. -/
def subscribeIfAbsent (ch : String) (cb : Nat) (st : RedisState) : RedisState :=
  if (alGet st.subs ch).isSome then st else subscribe ch cb st

/-- The per-room member snapshot used for disjointness statements. -/
def membOf (l : List (String × List String)) (k : String) : List String :=
  (alGet l k).getD []

theorem alGet_alSet_self {α : Type} (l : List (String × α)) (k : String) (v : α) :
    alGet (alSet l k v) k = some v := by
  induction l with
  | nil => simp [alGet, alSet]
  | cons hd t ih =>
    obtain ⟨k', v'⟩ := hd
    by_cases hk : k' = k
    · simp [alSet, alGet, hk]
    · simp [alSet, alGet, hk, ih]

theorem alGet_alSet_ne {α : Type} (l : List (String × α)) (k k' : String) (v : α)
    (h : k' ≠ k) : alGet (alSet l k v) k' = alGet l k' := by
  have hne : ¬k = k' := fun hh => h (Eq.symm hh)
  induction l with
  | nil => simp [alGet, alSet, hne]
  | cons hd t ih =>
    obtain ⟨k'', v'⟩ := hd
    by_cases hk : k'' = k
    · subst hk
      simp [alSet, alGet, hne]
    · by_cases hk' : k'' = k'
      · subst hk'
        simp [alSet, alGet, hk]
      · simp [alSet, alGet, hk, hk', ih]

theorem alGet_alDel_self {α : Type} (l : List (String × α)) (k : String) :
    alGet (alDel l k) k = none := by
  induction l with
  | nil => simp [alGet, alDel]
  | cons hd t ih =>
    obtain ⟨k', v'⟩ := hd
    by_cases hk : k' = k
    · subst hk
      simpa [alDel, List.filter_cons] using ih
    · simpa [alDel, List.filter_cons, hk, alGet] using ih

theorem alGet_alDel_ne {α : Type} (l : List (String × α)) (k k' : String)
    (h : k' ≠ k) : alGet (alDel l k) k' = alGet l k' := by
  have hne : ¬k = k' := fun hh => h (Eq.symm hh)
  induction l with
  | nil => simp [alGet, alDel]
  | cons hd t ih =>
    obtain ⟨k'', v'⟩ := hd
    by_cases hk : k'' = k
    · subst hk
      simpa [alDel, List.filter_cons, alGet, hne] using ih
    · by_cases hk' : k'' = k'
      · subst hk'
        simp [alDel, List.filter_cons, hk, alGet]
      · simpa [alDel, List.filter_cons, hk, hk', alGet] using ih

theorem alSet_of_alGet_self {α : Type} (l : List (String × α)) (k : String) (v : α)
    (h : alGet l k = some v) : alSet l k v = l := by
  induction l with
  | nil => simp [alGet] at h
  | cons hd t ih =>
    obtain ⟨k', v'⟩ := hd
    by_cases hk : k' = k
    · simp [alGet, hk] at h
      simp [alSet, hk, h]
    · simp only [alGet, hk, if_false] at h
      simp [alSet, hk, ih h]

theorem mem_alSet {α : Type} (l : List (String × α)) (k : String) (v : α)
    (p : String × α) (h : p ∈ alSet l k v) : p = (k, v) ∨ p ∈ l := by
  induction l with
  | nil => simpa [alSet] using h
  | cons hd t ih =>
    obtain ⟨k', v'⟩ := hd
    by_cases hk : k' = k
    · simp only [alSet, hk, if_true] at h
      rcases List.mem_cons.mp h with h1 | h2
      · left; simpa [hk] using h1
      · right; exact List.mem_cons_of_mem _ h2
    · simp only [alSet, hk, if_false] at h
      rcases List.mem_cons.mp h with h1 | h2
      · right; simp [h1]
      · rcases ih h2 with h3 | h4
        · exact Or.inl h3
        · exact Or.inr (List.mem_cons_of_mem _ h4)

theorem mem_of_alGet {α : Type} (l : List (String × α)) (k : String) (v : α)
    (h : alGet l k = some v) : (k, v) ∈ l := by
  induction l with
  | nil => simp [alGet] at h
  | cons hd t ih =>
    obtain ⟨k', v'⟩ := hd
    by_cases hk : k' = k
    · simp [alGet, hk] at h
      simp [hk, h]
    · simp only [alGet, hk, if_false] at h
      exact List.mem_cons_of_mem _ (ih h)

theorem alGet_append_of_isSome {α : Type} (l l2 : List (String × α)) (k : String)
    (h : (alGet l k).isSome) : alGet (l ++ l2) k = alGet l k := by
  induction l with
  | nil => simp [alGet] at h
  | cons hd t ih =>
    obtain ⟨k', v'⟩ := hd
    by_cases hk : k' = k
    · simp [alGet, hk]
    · simp only [alGet, hk, if_false] at h ⊢
      simpa [alGet, hk] using ih h

theorem alGet_append_of_none {α : Type} (l l2 : List (String × α)) (k : String)
    (h : alGet l k = none) : alGet (l ++ l2) k = alGet l2 k := by
  induction l with
  | nil => simp
  | cons hd t ih =>
    obtain ⟨k', v'⟩ := hd
    by_cases hk : k' = k
    · simp [alGet, hk] at h
    · simp only [alGet, hk, if_false] at h ⊢
      simpa [alGet, hk] using ih h

theorem mem_setAdd (l : List String) (c x : String) :
    x ∈ setAdd l c ↔ x ∈ l ∨ x = c := by
  by_cases h : c ∈ l
  · simp only [setAdd, h, if_true]
    constructor
    · exact Or.inl
    · rintro (h1 | rfl)
      · exact h1
      · exact h
  · simp [setAdd, h]

theorem self_mem_setAdd (l : List String) (c : String) : c ∈ setAdd l c := by
  simp [mem_setAdd]

theorem setAdd_of_mem (l : List String) (c : String) (h : c ∈ l) :
    setAdd l c = l := by
  simp [setAdd, h]

theorem mem_setDel (l : List String) (c x : String) (h : x ∈ setDel l c) :
    x ∈ l := by
  simpa [setDel] using (List.mem_filter.mp h).1

theorem setDel_single (c : String) : setDel [c] c = [] := by
  simp [setDel]

/-- Folding a sequence of binary merge updates through
CrdtService.applyUpdate, as the merge path does delta by delta. -/
def applyUpdates (r : String) (us : List (List Nat))
    (docs : List (String × YDoc)) : List (String × YDoc) :=
  us.foldl (fun d u => applyUpdate r u d) docs

/-- The room's document as observed by the store (a fresh empty document
when absent). -/
def docOf (docs : List (String × YDoc)) (r : String) : YDoc :=
  (alGet docs r).getD YDoc.empty

/-- A concrete instance state with one open connection `c1`, used for the
concrete evaluations below. -/
def baseState : SysState := ⟨[], [], [], [], ["c1"], "instA"⟩

/-- A concrete state in which `c1` has already joined room `r`. -/
def joinedState : SysState :=
  ⟨[("r", ⟨"r", 0, 1, 0, none⟩)], [("r", ["c1"])],
   [("c1", ⟨"c1", "r", "instA", 0⟩)], [("r", YDoc.empty)], ["c1"], "instA"⟩

theorem getDocumentState_fst (r : String) (docs : List (String × YDoc)) :
    (getDocumentState r docs).1 = docOf docs r := by
  unfold getDocumentState getOrCreateDocument docOf
  cases h : alGet docs r <;> simp [h]

theorem docOf_applyUpdate (r : String) (u : List Nat)
    (docs : List (String × YDoc)) :
    docOf (applyUpdate r u docs) r =
      if u = [] then docOf docs r
      else { docOf docs r with merged := insert u (docOf docs r).merged } := by
  by_cases hu : u = []
  · simp [applyUpdate, hu]
  · unfold applyUpdate getOrCreateDocument docOf
    cases h : alGet docs r <;> simp [hu, h, alGet_alSet_self]

theorem docOf_applyUpdates (r : String) (us : List (List Nat))
    (docs : List (String × YDoc)) :
    docOf (applyUpdates r us docs) r =
      { docOf docs r with
        merged := (docOf docs r).merged ∪ (us.filter (fun u => decide (u ≠ []))).toFinset } := by
  induction us generalizing docs with
  | nil => simp [applyUpdates]
  | cons u us ih =>
    have hstep : applyUpdates r (u :: us) docs = applyUpdates r us (applyUpdate r u docs) := by
      simp [applyUpdates]
    rw [hstep, ih, docOf_applyUpdate]
    by_cases hu : u = []
    · simp [hu, List.filter_cons]
    · rw [if_neg hu]
      have hfc : (u :: us).filter (fun u => decide (u ≠ []))
          = u :: us.filter (fun u => decide (u ≠ [])) := by
        simp [List.filter_cons, hu]
      rw [hfc, List.toFinset_cons, Finset.union_insert, Finset.insert_union]

/-- C1: for every sequence of binary merge updates applied via the merge
path (CrdtService.applyUpdate) to an initially-empty document store, any
permutation with any duplications of that sequence (same set of deltas)
yields the identical final encoded state from the full-state encoding
operation (CrdtService.getDocumentState). -/
theorem c1_merge_convergence (r : String) (us vs : List (List Nat))
    (h : us.toFinset = vs.toFinset) :
    (getDocumentState r (applyUpdates r us [])).1
      = (getDocumentState r (applyUpdates r vs [])).1 := by
  rw [getDocumentState_fst, getDocumentState_fst, docOf_applyUpdates, docOf_applyUpdates]
  have hf : (us.filter (fun u => decide (u ≠ []))).toFinset
      = (vs.filter (fun u => decide (u ≠ []))).toFinset := by
    rw [List.toFinset_filter, List.toFinset_filter, h]
  rw [hf]

/-- Witness for C1 at a concrete permutation-with-duplication. -/
theorem c1_merge_convergence_witness :
    ([[1], [2]] : List (List Nat)).toFinset = ([[2], [1], [1]] : List (List Nat)).toFinset ∧
    (getDocumentState "r" (applyUpdates "r" [[1], [2]] [])).1
      = (getDocumentState "r" (applyUpdates "r" [[2], [1], [1]] [])).1 :=
  ⟨by decide, c1_merge_convergence "r" [[1], [2]] [[2], [1], [1]] (by decide)⟩

/-- C2: a SYNC_UPDATE delivered from the replication bus whose tagged
instanceId equals the local instance id is skipped before any apply,
recordUpdate or broadcast: the state is returned unchanged and no event
is emitted. -/
theorem c2_self_echo_suppression (jp : List Nat → Option (List (String × String)))
    (now : Nat) (r : String) (m : SyncMsg) (s : SysState)
    (h : m.instanceId = s.instanceId) :
    handleRedisUpdate jp now r m s = (s, []) := by
  simp [handleRedisUpdate, h]

/-- Witness for C2 at a concrete self-echoed message. -/
theorem c2_self_echo_suppression_witness :
    (⟨"c2", [7], 3, "instA"⟩ : SyncMsg).instanceId = baseState.instanceId ∧
    handleRedisUpdate (fun _ => none) 9 "r" ⟨"c2", [7], 3, "instA"⟩ baseState
      = (baseState, []) :=
  ⟨rfl, c2_self_echo_suppression (fun _ => none) 9 "r" ⟨"c2", [7], 3, "instA"⟩ baseState rfl⟩

/-- C3: removing the last remaining member deletes the room record, its
member set and its document in the same removeClientFromRoom step, and a
subsequent join for the same room id creates a fresh room whose document
is empty. -/
theorem c3_room_lifecycle (s : SysState) (c r : String) (cl : IClient)
    (hcl : alGet s.clients c = some cl) (hrid : cl.roomId = r)
    (hms : alGet s.roomClients r = some [c])
    (room : IRoom) (hroom : alGet s.rooms r = some room) :
    (alGet (removeClientFromRoom c s).rooms r = none ∧
     alGet (removeClientFromRoom c s).docs r = none ∧
     alGet (removeClientFromRoom c s).roomClients r = none) ∧
    (∀ c2 i : String, ∀ now : Nat,
      alGet (addClientToRoom c2 r i now (removeClientFromRoom c s)).docs r
          = some YDoc.empty ∧
      alGet (addClientToRoom c2 r i now (removeClientFromRoom c s)).rooms r
          = some ⟨r, now, 1, 0, none⟩ ∧
      membOf (addClientToRoom c2 r i now (removeClientFromRoom c s)).roomClients r
          = [c2]) := by
  have hrc : alGet (alSet s.roomClients r []) r = some [] := alGet_alSet_self _ _ _
  have hrm : removeClientFromRoom c s =
      ⟨alDel s.rooms r, alDel (alSet s.roomClients r []) r, alDel s.clients c,
       alDel s.docs r, s.conns, s.instanceId⟩ := by
    simp only [removeClientFromRoom, removeStep1, removeStep2, hcl, hrid, hms, hroom,
      setDel_single, hrc]
    simp [deleteRoom, deleteDocument]
  rw [hrm]
  constructor
  · exact ⟨alGet_alDel_self _ _, alGet_alDel_self _ _, alGet_alDel_self _ _⟩
  · intro c2 i now
    have hdocsnone : alGet (alDel s.docs r) r = none := alGet_alDel_self _ _
    have hroomsnone : alGet (alDel s.rooms r) r = none := alGet_alDel_self _ _
    have hdocapp : alGet (alDel s.docs r ++ [(r, YDoc.empty)]) r = some YDoc.empty := by
      rw [alGet_append_of_none _ _ _ hdocsnone]
      simp [alGet]
    simp only [addClientToRoom, getOrCreateRoom, hroomsnone, getOrCreateDocument,
      hdocsnone]
    refine ⟨by simpa using hdocapp, ?_, ?_⟩
    · simp [alGet_alSet_self, setAdd]
    · simp [membOf, alGet_alSet_self, setAdd]

/-- Witness for C3 at the concrete one-member room state. -/
theorem c3_room_lifecycle_witness :
    alGet joinedState.roomClients "r" = some ["c1"] ∧
    alGet (removeClientFromRoom "c1" joinedState).rooms "r" = none ∧
    alGet (addClientToRoom "c2" "r" "instA" 7 (removeClientFromRoom "c1" joinedState)).docs "r"
      = some YDoc.empty :=
  ⟨by decide,
   ((c3_room_lifecycle joinedState "c1" "r" ⟨"c1", "r", "instA", 0⟩ (by decide) rfl
      (by decide) ⟨"r", 0, 1, 0, none⟩ (by decide)).1).1,
   ((c3_room_lifecycle joinedState "c1" "r" ⟨"c1", "r", "instA", 0⟩ (by decide) rfl
      (by decide) ⟨"r", 0, 1, 0, none⟩ (by decide)).2 "c2" "instA" 7).1⟩

/-- C10: adding a client that is already a member of the room leaves the
member set, the room record (clientCount included) and the document
store unchanged; only the stored client record's joinedAt timestamp is
refreshed. -/
theorem c10_rejoin_idempotent (s : SysState) (c r i : String) (t0 t1 : Nat)
    (ms : List String) (room : IRoom)
    (_hcl : alGet s.clients c = some ⟨c, r, i, t0⟩)
    (hms : alGet s.roomClients r = some ms) (hmem : c ∈ ms)
    (hroom : alGet s.rooms r = some room) (hcnt : room.clientCount = ms.length) :
    addClientToRoom c r i t1 s
      = { s with clients := alSet s.clients c ⟨c, r, i, t1⟩ } := by
  have hmembers : setAdd ((alGet s.roomClients r).getD []) c = ms := by
    rw [hms]
    exact setAdd_of_mem ms c hmem
  have hroomrec : ({ room with clientCount := ms.length } : IRoom) = room := by
    cases room
    simp_all
  simp only [addClientToRoom, getOrCreateRoom, hroom, hmembers, hroomrec,
    alSet_of_alGet_self _ _ _ hms, alSet_of_alGet_self _ _ _ hroom]

/-- Witness for C10 at the concrete one-member room state. -/
theorem c10_rejoin_idempotent_witness :
    "c1" ∈ (["c1"] : List String) ∧
    addClientToRoom "c1" "r" "instA" 5 joinedState
      = { joinedState with clients := alSet joinedState.clients "c1" ⟨"c1", "r", "instA", 5⟩ } :=
  ⟨by decide,
   c10_rejoin_idempotent joinedState "c1" "r" "instA" 0 5 ["c1"] ⟨"r", 0, 1, 0, none⟩
     (by decide) (by decide) (by decide) (by decide) (by decide)⟩

/-- C4: the binary-frame decoder yields a message exactly when the first
byte is 1 and the total length equals 1 + 2 + L + 8 + 4 + U for the
declared room-id length L and update length U; and on a frame that is
not brace-prefixed text and fails to decode, handleMessage leaves the
state (rooms, documents, connections) unchanged and replies with exactly
one ERROR message. -/
theorem c4_binary_decoder (bs : List Nat) :
    ((decodeBinaryDocumentUpdate bs).isSome ↔
      (byteAt bs 0 = 1 ∧
       bs.length = 1 + 2 + readU16LE bs 1 + 8 + 4 + readU32LE bs (11 + readU16LE bs 1))) ∧
    (∀ jpFrame jp (c : String) (now : Nat) (s : SysState),
      decodeBinaryDocumentUpdate bs = none → beginsWithBrace bs = false →
      c ∈ s.conns →
      handleMessage jpFrame jp c now bs s
        = (s, [Evt.send c (OutMsg.errorMsg "Invalid message format")])) := by
  constructor
  · unfold decodeBinaryDocumentUpdate
    split_ifs with h1 h2 h3 h4 h5 h6 <;> simp_all <;> omega
  · intro jpFrame jp c now s hdec hbrace hc
    simp [handleMessage, hc, hbrace, hdec, sendError]

/-- Witness for C4: a truncated frame (first byte 1, declared update
length too large) is rejected and answered with one ERROR. -/
theorem c4_binary_decoder_witness :
    decodeBinaryDocumentUpdate [1, 0, 0, 0, 0, 0, 0, 0, 0, 0, 0, 5, 0, 0, 0, 8, 8, 8] = none ∧
    beginsWithBrace [1, 0, 0, 0, 0, 0, 0, 0, 0, 0, 0, 5, 0, 0, 0, 8, 8, 8] = false ∧
    "c1" ∈ baseState.conns ∧
    handleMessage (fun _ => none) (fun _ => none) "c1" 0
        [1, 0, 0, 0, 0, 0, 0, 0, 0, 0, 0, 5, 0, 0, 0, 8, 8, 8] baseState
      = (baseState, [Evt.send "c1" (OutMsg.errorMsg "Invalid message format")]) :=
  ⟨by decide, by decide, by decide,
   (c4_binary_decoder [1, 0, 0, 0, 0, 0, 0, 0, 0, 0, 0, 5, 0, 0, 0, 8, 8, 8]).2
     (fun _ => none) (fun _ => none) "c1" 0 baseState (by decide) (by decide) (by decide)⟩

/-- C5: a frame on which both the JSON path and the binary decoder fail
draws exactly one ERROR "Invalid message format" reply, leaves every
piece of state (so also the connection set) unchanged, and a subsequent
valid JOIN_ROOM on the same connection still succeeds: the client is
registered in the room and first receives the DOCUMENT_STATE message. -/
theorem c5_invalid_frame (jpFrame : List Nat → Option IMessage)
    (jp : List Nat → Option (List (String × String)))
    (bs : List Nat) (c : String) (now : Nat) (s : SysState)
    (hjf : jpFrame bs = none) (hdec : decodeBinaryDocumentUpdate bs = none)
    (hc : c ∈ s.conns) :
    handleMessage jpFrame jp c now bs s
      = (s, [Evt.send c (OutMsg.errorMsg "Invalid message format")]) ∧
    (∀ r : String, ∀ ts : Nat, r ≠ "" →
      alGet (handleJoinRoom c now ⟨MsgType.joinRoom, r, none, none, ts⟩ s).1.clients c
          = some ⟨c, r, s.instanceId, now⟩ ∧
      c ∈ membOf (handleJoinRoom c now ⟨MsgType.joinRoom, r, none, none, ts⟩ s).1.roomClients r ∧
      ∃ d rest, (handleJoinRoom c now ⟨MsgType.joinRoom, r, none, none, ts⟩ s).2
          = Evt.send c (OutMsg.docState r d now) :: rest) := by
  constructor
  · by_cases hbrace : beginsWithBrace bs = true
    · simp [handleMessage, hc, hbrace, hjf, hdec, sendError]
    · simp only [Bool.not_eq_true] at hbrace
      simp [handleMessage, hc, hbrace, hdec, sendError]
  · intro r ts hr
    have hcl : (addClientToRoom c r s.instanceId now s).clients
        = alSet (getOrCreateRoom r now s).2.clients c ⟨c, r, s.instanceId, now⟩ := rfl
    have hgc : (getOrCreateRoom r now s).2.clients = s.clients := by
      unfold getOrCreateRoom
      cases h : alGet s.rooms r <;> simp
    refine ⟨?_, ?_, ?_⟩
    · simp only [handleJoinRoom, hr, if_false]
      simp only [hcl, hgc]
      exact alGet_alSet_self _ _ _
    · simp only [handleJoinRoom, hr, if_false, membOf]
      have : (addClientToRoom c r s.instanceId now s).roomClients
          = alSet (getOrCreateRoom r now s).2.roomClients r
              (setAdd ((alGet (getOrCreateRoom r now s).2.roomClients r).getD []) c) := rfl
      simp only [this, alGet_alSet_self]
      exact self_mem_setAdd _ _
    · simp only [handleJoinRoom, hr, if_false]
      exact ⟨_, _, rfl⟩

/-- Witness for C5: the malformed frame elicits one ERROR and a later
JOIN_ROOM for room "r" still registers the client. -/
theorem c5_invalid_frame_witness :
    ((fun _ => none : List Nat → Option IMessage) [123, 110]) = none ∧
    decodeBinaryDocumentUpdate [123, 110] = none ∧
    "c1" ∈ baseState.conns ∧ ("r" : String) ≠ "" ∧
    handleMessage (fun _ => none) (fun _ => none) "c1" 4 [123, 110] baseState
      = (baseState, [Evt.send "c1" (OutMsg.errorMsg "Invalid message format")]) ∧
    alGet (handleJoinRoom "c1" 4 ⟨MsgType.joinRoom, "r", none, none, 4⟩ baseState).1.clients "c1"
      = some ⟨"c1", "r", baseState.instanceId, 4⟩ :=
  ⟨rfl, by decide, by decide, by decide,
   (c5_invalid_frame (fun _ => none) (fun _ => none) [123, 110] "c1" 4 baseState
      rfl (by decide) (by decide)).1,
   ((c5_invalid_frame (fun _ => none) (fun _ => none) [123, 110] "c1" 4 baseState
      rfl (by decide) (by decide)).2 "r" 4 (by decide)).1⟩

theorem recordUpdate_docs (r : String) (now : Nat) (s : SysState) :
    (recordUpdate r now s).docs = s.docs := by
  unfold recordUpdate
  cases h : alGet s.rooms r <;> simp

theorem afterApply_docs (c : String) (now : Nat) (r : String) (bs : List Nat)
    (s1 : SysState) : ((afterApply c now r bs s1).1).docs = s1.docs := by
  simp [afterApply, recordUpdate_docs]

/-- C6 counterexample: the payload bytes `\x7bx` (the string "\x7bx")
begin with an opening brace after trimming, yet — because the runtime's
`JSON.parse` throws on them, modelled by the parse parameter returning
`none` — handleDocumentUpdate routes them to the binary merge path: the
document's merge set gains the raw bytes and its field map stays empty,
so the update is not applied via the field-patch path as the claim
states. -/
theorem c6_brace_routing_counterexample :
    beginsWithBrace [123, 120] = true ∧
    alGet (handleDocumentUpdate (fun _ => none) "c1" 1
        ⟨MsgType.documentUpdate, "r", some "c1", some [123, 120], 1⟩ baseState).1.docs "r"
      = some ⟨insert [123, 120] ∅, []⟩ := by
  constructor
  · decide
  · decide

/-- C6 amended: a DOCUMENT_UPDATE payload whose decoded bytes trim to an
opening brace is applied via the field-patch path only when the JSON
parse also succeeds; brace-prefixed bytes whose parse fails, and all
non-brace payloads, go to the binary merge path; an empty decoded update
is dropped with no state change and no reply. -/
theorem c6_update_routing (jp : List Nat → Option (List (String × String)))
    (c : String) (now ts : Nat) (r : String) (bs : List Nat) (s : SysState)
    (hr : r ≠ "") :
    (∀ fieldsU, beginsWithBrace bs = true → jp bs = some fieldsU →
      (handleDocumentUpdate jp c now
          ⟨MsgType.documentUpdate, r, some c, some bs, ts⟩ s).1.docs
        = applyJsonUpdate r fieldsU s.docs) ∧
    ((beginsWithBrace bs = false ∨ jp bs = none) → bs ≠ [] →
      (handleDocumentUpdate jp c now
          ⟨MsgType.documentUpdate, r, some c, some bs, ts⟩ s).1.docs
        = applyUpdate r bs s.docs) ∧
    (bs = [] →
      handleDocumentUpdate jp c now
          ⟨MsgType.documentUpdate, r, some c, some bs, ts⟩ s = (s, [])) := by
  refine ⟨?_, ?_, ?_⟩
  · intro fieldsU hb hjp
    simp [handleDocumentUpdate, hr, hb, hjp, afterApply_docs]
  · intro hor hne
    have hnone : (if beginsWithBrace bs then jp bs else none) = none := by
      rcases hor with hb | hj
      · simp [hb]
      · simp [hj]
    have hlen : ¬bs.length = 0 := by simpa [List.length_eq_zero] using hne
    simp [handleDocumentUpdate, hr, hnone, hlen, afterApply_docs]
  · intro hbs
    subst hbs
    simp [handleDocumentUpdate, hr, beginsWithBrace]

/-- Witness for C6 (amended) at a concrete brace-prefixed payload whose
parse succeeds. -/
theorem c6_update_routing_witness :
    ("r" : String) ≠ "" ∧ beginsWithBrace [123] = true ∧
    (handleDocumentUpdate (fun _ => some [("k", "v")]) "c1" 2
        ⟨MsgType.documentUpdate, "r", some "c1", some [123], 3⟩ baseState).1.docs
      = applyJsonUpdate "r" [("k", "v")] baseState.docs :=
  ⟨by decide, by decide,
   (c6_update_routing (fun _ => some [("k", "v")]) "c1" 2 3 "r" [123] baseState
      (by decide)).1 [("k", "v")] (by decide) rfl⟩

/-- C9 counterexample: a second RedisService.subscribe call for the same
channel is not a no-op — it replaces the stored callback and registers
one more listener on the subscriber client, so the registered-callback
set after the repeated call differs from the set after the first. -/
theorem c9_resubscribe_counterexample :
    subscribe "ch" 2 (subscribe "ch" 1 ⟨[], []⟩) ≠ subscribe "ch" 1 ⟨[], []⟩ ∧
    alGet (subscribe "ch" 2 (subscribe "ch" 1 ⟨[], []⟩)).subs "ch" = some 2 ∧
    (subscribe "ch" 2 (subscribe "ch" 1 ⟨[], []⟩)).clientListeners.length = 2 := by
  refine ⟨?_, by decide, by decide⟩
  decide

/-- C9 amended: RedisService.subscribe itself always overwrites; the
at-most-one-callback-per-channel behaviour is enforced by the caller's
guard in handleJoinRoom (subscribe only when the channel is absent from
getStatus().subscribedChannels), and that guarded operation is
idempotent: repeating it for a subscribed channel changes nothing. -/
theorem c9_guarded_subscribe_idempotent (st : RedisState) (ch : String)
    (cb cb' : Nat) :
    subscribeIfAbsent ch cb' (subscribeIfAbsent ch cb st) = subscribeIfAbsent ch cb st := by
  by_cases h : (alGet st.subs ch).isSome
  · simp [subscribeIfAbsent, h]
  · simp [subscribeIfAbsent, h, subscribe, alGet_alSet_self]

/-- The room/document pairing invariant in the direction the code
maintains: every registered room id has a document in the store. -/
def RoomsHaveDocs (s : SysState) : Prop :=
  ∀ p ∈ s.rooms, (alGet s.docs p.1).isSome

theorem isSome_alGet_alSet {α : Type} (l : List (String × α)) (k k' : String) (v : α)
    (h : (alGet l k').isSome) : (alGet (alSet l k v) k').isSome := by
  by_cases hk : k' = k
  · subst hk
    simp [alGet_alSet_self]
  · rwa [alGet_alSet_ne _ _ _ _ hk]

theorem isSome_getOrCreateDocument_snd (r k : String) (docs : List (String × YDoc))
    (h : (alGet docs k).isSome) :
    (alGet (getOrCreateDocument r docs).2 k).isSome := by
  unfold getOrCreateDocument
  cases hr : alGet docs r
  · simp only []
    rwa [alGet_append_of_isSome _ _ _ h]
  · simpa using h

theorem isSome_getOrCreateDocument_self (r : String) (docs : List (String × YDoc)) :
    (alGet (getOrCreateDocument r docs).2 r).isSome := by
  unfold getOrCreateDocument
  cases hr : alGet docs r
  · simp only []
    rw [alGet_append_of_none _ _ _ hr]
    simp [alGet]
  · simp [hr]

theorem isSome_applyUpdate (r k : String) (u : List Nat) (docs : List (String × YDoc))
    (h : (alGet docs k).isSome) : (alGet (applyUpdate r u docs) k).isSome := by
  unfold applyUpdate
  by_cases hu : u = []
  · simpa [hu] using h
  · simp only [hu, if_false]
    exact isSome_alGet_alSet _ _ _ _ (isSome_getOrCreateDocument_snd r k docs h)

theorem isSome_applyJsonUpdate (r k : String) (fieldsU : List (String × String))
    (docs : List (String × YDoc)) (h : (alGet docs k).isSome) :
    (alGet (applyJsonUpdate r fieldsU docs) k).isSome := by
  unfold applyJsonUpdate
  exact isSome_alGet_alSet _ _ _ _ (isSome_getOrCreateDocument_snd r k docs h)

theorem roomsHaveDocs_getOrCreateRoom (r : String) (now : Nat) (s : SysState)
    (h : RoomsHaveDocs s) : RoomsHaveDocs (getOrCreateRoom r now s).2 := by
  unfold getOrCreateRoom
  cases hr : alGet s.rooms r
  · intro p hp
    rcases mem_alSet _ _ _ _ hp with rfl | hmem
    · exact isSome_getOrCreateDocument_self r s.docs
    · exact isSome_getOrCreateDocument_snd r p.1 s.docs (h p hmem)
  · exact h

theorem docs_getOrCreateRoom_self (r : String) (now : Nat) (s : SysState)
    (h : RoomsHaveDocs s) : (alGet (getOrCreateRoom r now s).2.docs r).isSome := by
  unfold getOrCreateRoom
  cases hr : alGet s.rooms r
  · exact isSome_getOrCreateDocument_self r s.docs
  · exact h _ (mem_of_alGet _ _ _ hr)

theorem roomsHaveDocs_addClientToRoom (c r i : String) (now : Nat) (s : SysState)
    (h : RoomsHaveDocs s) : RoomsHaveDocs (addClientToRoom c r i now s) := by
  have h1 := roomsHaveDocs_getOrCreateRoom r now s h
  have h2 := docs_getOrCreateRoom_self r now s h
  unfold addClientToRoom
  intro p hp
  simp only [] at hp
  rcases mem_alSet _ _ _ _ hp with rfl | hmem
  · exact h2
  · exact h1 p hmem

theorem roomsHaveDocs_recordUpdate (r : String) (now : Nat) (s : SysState)
    (h : RoomsHaveDocs s) : RoomsHaveDocs (recordUpdate r now s) := by
  unfold recordUpdate
  cases hr : alGet s.rooms r
  · exact h
  case some room =>
    intro p hp
    rcases mem_alSet _ _ _ _ hp with rfl | hmem
    · simpa using h _ (mem_of_alGet s.rooms r room hr)
    · exact h p hmem

theorem roomsHaveDocs_deleteRoom (r : String) (s : SysState)
    (h : RoomsHaveDocs s) : RoomsHaveDocs (deleteRoom r s) := by
  intro p hp
  simp only [deleteRoom, alDel] at hp
  have hmem := List.mem_filter.mp hp
  have hne : p.1 ≠ r := by simpa using hmem.2
  simp only [deleteRoom, deleteDocument]
  rw [alGet_alDel_ne _ _ _ hne]
  exact h p hmem.1

theorem roomsHaveDocs_removeStep1 (c : String) (cl : IClient) (s : SysState)
    (h : RoomsHaveDocs s) : RoomsHaveDocs (removeStep1 c cl s) := by
  unfold removeStep1
  cases hms : alGet s.roomClients cl.roomId
  · exact h
  · exact h

theorem roomsHaveDocs_removeStep2 (cl : IClient) (s1 : SysState)
    (h : RoomsHaveDocs s1) : RoomsHaveDocs (removeStep2 cl s1) := by
  unfold removeStep2
  split
  next room hroom =>
    by_cases hcnt : ((alGet s1.roomClients cl.roomId).getD []).length = 0
    · rw [if_pos hcnt]
      exact roomsHaveDocs_deleteRoom _ _ h
    · rw [if_neg hcnt]
      intro p hp
      rcases mem_alSet _ _ _ _ hp with rfl | hmem
      · simpa using h _ (mem_of_alGet s1.rooms cl.roomId room hroom)
      · exact h p hmem
  next hroom => exact h

theorem roomsHaveDocs_removeClientFromRoom (c : String) (s : SysState)
    (h : RoomsHaveDocs s) : RoomsHaveDocs (removeClientFromRoom c s) := by
  unfold removeClientFromRoom
  cases hcl : alGet s.clients c
  · exact h
  case some cl =>
    exact roomsHaveDocs_removeStep2 cl _ (roomsHaveDocs_removeStep1 c cl s h)

theorem roomsHaveDocs_docsGrow (s : SysState) (docs1 : List (String × YDoc))
    (h : RoomsHaveDocs s)
    (hgrow : ∀ k, (alGet s.docs k).isSome → (alGet docs1 k).isSome) :
    RoomsHaveDocs { s with docs := docs1 } := by
  intro p hp
  exact hgrow p.1 (h p hp)

theorem roomsHaveDocs_handleJoinRoom (c : String) (now : Nat) (m : IMessage)
    (s : SysState) (h : RoomsHaveDocs s) :
    RoomsHaveDocs (handleJoinRoom c now m s).1 := by
  unfold handleJoinRoom
  by_cases hr : m.roomId = ""
  · simpa [hr] using h
  · rw [if_neg hr]
    have h1 := roomsHaveDocs_addClientToRoom c m.roomId s.instanceId now s h
    refine roomsHaveDocs_docsGrow _ _ h1 ?_
    intro k hk
    exact isSome_getOrCreateDocument_snd _ _ _ hk

theorem roomsHaveDocs_handleLeaveRoom (c : String) (m : IMessage) (s : SysState)
    (h : RoomsHaveDocs s) : RoomsHaveDocs (handleLeaveRoom c m s).1 := by
  unfold handleLeaveRoom
  by_cases hr : m.roomId = ""
  · simpa [hr] using h
  · rw [if_neg hr]
    exact roomsHaveDocs_removeClientFromRoom c s h

theorem roomsHaveDocs_handleDocumentUpdate
    (jp : List Nat → Option (List (String × String))) (c : String) (now : Nat)
    (m : IMessage) (s : SysState) (h : RoomsHaveDocs s) :
    RoomsHaveDocs (handleDocumentUpdate jp c now m s).1 := by
  unfold handleDocumentUpdate
  split
  · exact h
  · split
    · exact h
    next bs =>
      split
      next fieldsU heq =>
        exact roomsHaveDocs_recordUpdate _ _ _
          (roomsHaveDocs_docsGrow _ _ h (fun k hk => isSome_applyJsonUpdate _ _ _ _ hk))
      next heq =>
        split
        · exact h
        · exact roomsHaveDocs_recordUpdate _ _ _
            (roomsHaveDocs_docsGrow _ _ h (fun k hk => isSome_applyUpdate _ _ _ _ hk))

theorem roomsHaveDocs_handleRedisUpdate
    (jp : List Nat → Option (List (String × String))) (now : Nat) (r : String)
    (m : SyncMsg) (s : SysState) (h : RoomsHaveDocs s) :
    RoomsHaveDocs (handleRedisUpdate jp now r m s).1 := by
  unfold handleRedisUpdate
  split
  · exact h
  · refine roomsHaveDocs_recordUpdate _ _ _ ?_
    split
    next fieldsU heq =>
      exact roomsHaveDocs_docsGrow _ _ h (fun k hk => isSome_applyJsonUpdate _ _ _ _ hk)
    next heq =>
      exact roomsHaveDocs_docsGrow _ _ h (fun k hk => isSome_applyUpdate _ _ _ _ hk)

theorem roomsHaveDocs_dispatch
    (jp : List Nat → Option (List (String × String))) (c : String) (now : Nat)
    (m : IMessage) (s : SysState) (h : RoomsHaveDocs s) :
    RoomsHaveDocs (dispatch jp c now m s).1 := by
  unfold dispatch
  split
  · exact roomsHaveDocs_handleJoinRoom c now m s h
  · exact roomsHaveDocs_handleLeaveRoom c m s h
  · exact roomsHaveDocs_handleDocumentUpdate jp c now m s h
  · exact h

theorem roomsHaveDocs_handleMessage (jpFrame : List Nat → Option IMessage)
    (jp : List Nat → Option (List (String × String))) (c : String) (now : Nat)
    (bs : List Nat) (s : SysState) (h : RoomsHaveDocs s) :
    RoomsHaveDocs (handleMessage jpFrame jp c now bs s).1 := by
  unfold handleMessage
  split
  · split
    · split
      · exact roomsHaveDocs_dispatch jp c now _ s h
      · split
        · exact roomsHaveDocs_dispatch jp c now _ s h
        · exact h
    · split
      · exact roomsHaveDocs_dispatch jp c now _ s h
      · exact h
  · exact h

/-- C7 counterexample: from the empty state (no registered rooms), one
DOCUMENT_UPDATE naming room "r" creates the document for "r" through
getOrCreateDocument inside the apply path without ever registering the
room, so a document exists whose room record does not — the claimed
equivalence fails at a reachable state. -/
theorem c7_room_doc_counterexample :
    (alGet (handleDocumentUpdate (fun _ => none) "c1" 0
        ⟨MsgType.documentUpdate, "r", some "c1", some [5], 0⟩ baseState).1.docs "r").isSome
      = true ∧
    alGet (handleDocumentUpdate (fun _ => none) "c1" 0
        ⟨MsgType.documentUpdate, "r", some "c1", some [5], 0⟩ baseState).1.rooms "r"
      = none := by
  constructor
  · decide
  · decide

/-- C7 amended: only the forward direction of the pairing holds as an
invariant — every registered room has a document — and it is preserved
by every operation of the gateway (join, leave, document update, sync
update, and whole-frame handling; the state read happens inside join).
The converse is not an invariant, see the counterexample. -/
theorem c7_room_doc_invariant_amended (s : SysState) (h : RoomsHaveDocs s) :
    (∀ c : String, ∀ now : Nat, ∀ m : IMessage,
        RoomsHaveDocs (handleJoinRoom c now m s).1) ∧
    (∀ c : String, ∀ m : IMessage, RoomsHaveDocs (handleLeaveRoom c m s).1) ∧
    (∀ jp, ∀ c : String, ∀ now : Nat, ∀ m : IMessage,
        RoomsHaveDocs (handleDocumentUpdate jp c now m s).1) ∧
    (∀ jp, ∀ now : Nat, ∀ r : String, ∀ m : SyncMsg,
        RoomsHaveDocs (handleRedisUpdate jp now r m s).1) ∧
    (∀ jpFrame jp, ∀ c : String, ∀ now : Nat, ∀ bs : List Nat,
        RoomsHaveDocs (handleMessage jpFrame jp c now bs s).1) :=
  ⟨fun c now m => roomsHaveDocs_handleJoinRoom c now m s h,
   fun c m => roomsHaveDocs_handleLeaveRoom c m s h,
   fun jp c now m => roomsHaveDocs_handleDocumentUpdate jp c now m s h,
   fun jp now r m => roomsHaveDocs_handleRedisUpdate jp now r m s h,
   fun jpFrame jp c now bs => roomsHaveDocs_handleMessage jpFrame jp c now bs s h⟩

/-- Witness for C7 (amended) from the empty state. -/
theorem c7_room_doc_invariant_amended_witness :
    RoomsHaveDocs baseState ∧
    RoomsHaveDocs (handleJoinRoom "c1" 0 ⟨MsgType.joinRoom, "r", none, none, 0⟩ baseState).1 := by
  have h0 : RoomsHaveDocs baseState := by
    intro p hp
    simp [baseState] at hp
  exact ⟨h0, (c7_room_doc_invariant_amended baseState h0).1 "c1" 0 _⟩

/-- Pairwise disjointness of the registry's per-room member sets. -/
def MemberSetsDisjoint (l : List (String × List String)) : Prop :=
  ∀ k1 k2 : String, k1 ≠ k2 → ∀ x : String, x ∈ membOf l k1 → x ∉ membOf l k2

theorem memb_addClientToRoom (c r i : String) (now : Nat) (s : SysState)
    (k x : String)
    (hx : x ∈ membOf (addClientToRoom c r i now s).roomClients k) :
    (k = r ∧ (x = c ∨ x ∈ membOf s.roomClients r)) ∨
    (k ≠ r ∧ x ∈ membOf s.roomClients k) := by
  unfold addClientToRoom getOrCreateRoom at hx
  split at hx
  next room hroom =>
    by_cases hk : k = r
    · subst hk
      rw [membOf, alGet_alSet_self, Option.getD_some] at hx
      rcases (mem_setAdd _ _ _).mp hx with hm | rfl
      · exact Or.inl ⟨rfl, Or.inr hm⟩
      · exact Or.inl ⟨rfl, Or.inl rfl⟩
    · rw [membOf, alGet_alSet_ne _ _ _ _ hk] at hx
      exact Or.inr ⟨hk, hx⟩
  next hroom =>
    by_cases hk : k = r
    · subst hk
      rw [membOf, alGet_alSet_self, Option.getD_some] at hx
      rw [alGet_alSet_self, Option.getD_some] at hx
      rcases (mem_setAdd _ _ _).mp hx with hm | rfl
      · simp [setAdd] at hm
      · exact Or.inl ⟨rfl, Or.inl rfl⟩
    · rw [membOf, alGet_alSet_ne _ _ _ _ hk, alGet_alSet_ne _ _ _ _ hk] at hx
      exact Or.inr ⟨hk, hx⟩

theorem memb_removeStep1 (c : String) (cl : IClient) (s : SysState)
    (k x : String) (hx : x ∈ membOf (removeStep1 c cl s).roomClients k) :
    x ∈ membOf s.roomClients k := by
  unfold removeStep1 at hx
  split at hx
  next ms hms =>
    by_cases hk : k = cl.roomId
    · subst hk
      rw [membOf, alGet_alSet_self, Option.getD_some] at hx
      have hxm := mem_setDel _ _ _ hx
      simpa [membOf, hms] using hxm
    · rwa [membOf, alGet_alSet_ne _ _ _ _ hk] at hx
  next hms => exact hx

theorem memb_removeStep2 (cl : IClient) (s1 : SysState)
    (k x : String) (hx : x ∈ membOf (removeStep2 cl s1).roomClients k) :
    x ∈ membOf s1.roomClients k := by
  unfold removeStep2 at hx
  split at hx
  next room hroom =>
    split at hx
    · by_cases hk : k = cl.roomId
      · subst hk
        rw [membOf] at hx
        simp only [deleteRoom] at hx
        rw [alGet_alDel_self] at hx
        simp at hx
      · rw [membOf] at hx
        simp only [deleteRoom] at hx
        rwa [alGet_alDel_ne _ _ _ hk] at hx
    · exact hx
  next hroom => exact hx

theorem memb_removeClientFromRoom (c : String) (s : SysState)
    (k x : String) (hx : x ∈ membOf (removeClientFromRoom c s).roomClients k) :
    x ∈ membOf s.roomClients k := by
  unfold removeClientFromRoom at hx
  split at hx
  next hcl => exact hx
  next cl hcl =>
    exact memb_removeStep1 c cl s k x (memb_removeStep2 cl _ k x hx)

/-- C8 counterexample: the registry's addClientToRoom never removes the
client from a previously joined room's member set, so a client joining a
second room without leaving is a member of both sets at once. -/
theorem c8_single_room_counterexample :
    "c1" ∈ membOf (addClientToRoom "c1" "r2" "instA" 1
        (addClientToRoom "c1" "r1" "instA" 0 baseState)).roomClients "r1" ∧
    "c1" ∈ membOf (addClientToRoom "c1" "r2" "instA" 1
        (addClientToRoom "c1" "r1" "instA" 0 baseState)).roomClients "r2" ∧
    ("r1" : String) ≠ "r2" := by
  refine ⟨by decide, by decide, by decide⟩

/-- C8 amended: the member sets stay pairwise disjoint under
removeClientFromRoom, and under addClientToRoom whenever the joining
client is not currently in any member set; a join by a client still
member of another room breaks disjointness (see the counterexample). -/
theorem c8_membership_disjoint_amended (s : SysState)
    (h : MemberSetsDisjoint s.roomClients) :
    (∀ c r i : String, ∀ now : Nat, (∀ k : String, c ∉ membOf s.roomClients k) →
      MemberSetsDisjoint (addClientToRoom c r i now s).roomClients) ∧
    (∀ c : String, MemberSetsDisjoint (removeClientFromRoom c s).roomClients) := by
  constructor
  · intro c r i now hfresh k1 k2 hk x hx1 hx2
    rcases memb_addClientToRoom c r i now s k1 x hx1 with ⟨hk1, hcase1⟩ | ⟨hk1, hx1a⟩
    · rcases memb_addClientToRoom c r i now s k2 x hx2 with ⟨hk2, hcase2⟩ | ⟨hk2, hx2a⟩
      · exact hk (hk1.trans hk2.symm)
      · rcases hcase1 with rfl | hx1a
        · exact hfresh k2 hx2a
        · exact h r k2 (hk1 ▸ hk) x hx1a hx2a
    · rcases memb_addClientToRoom c r i now s k2 x hx2 with ⟨hk2, hcase2⟩ | ⟨hk2, hx2a⟩
      · rcases hcase2 with rfl | hx2a
        · exact hfresh k1 hx1a
        · exact h k1 r (hk2 ▸ hk) x hx1a hx2a
      · exact h k1 k2 hk x hx1a hx2a
  · intro c k1 k2 hk x hx1 hx2
    exact h k1 k2 hk x (memb_removeClientFromRoom c s k1 x hx1)
      (memb_removeClientFromRoom c s k2 x hx2)

/-- Witness for C8 (amended): a fresh client joining from the empty
state keeps the member sets disjoint. -/
theorem c8_membership_disjoint_amended_witness :
    MemberSetsDisjoint baseState.roomClients ∧
    MemberSetsDisjoint (addClientToRoom "c1" "r1" "instA" 0 baseState).roomClients := by
  have h0 : MemberSetsDisjoint baseState.roomClients := by
    intro k1 k2 hk x hx
    simp [baseState, membOf, alGet] at hx
  exact ⟨h0, (c8_membership_disjoint_amended baseState h0).1 "c1" "r1" "instA" 0
    (by intro k; simp [baseState, membOf, alGet])⟩

end CollabEditor
